import Mathlib

/-!
Verification of the slave lifecycle supervisor and fault manager of the
data-provider-master daemon (src/src/fault_manager.c, src/src/slave_life.c).

C strings are modelled as `List Char` (no interior NUL assumed, contents
shorter than BUFSIZ).  Machine `int` fields are modelled as `Int`.  External
collaborators (package registry, RPC transport, launcher, timers, clocks,
callback lists) are modelled as explicit inputs/outputs: lookup tables,
environment records and effect flags.  Heap allocation is assumed to
succeed (the C code only bails out with LB_STATUS_ERROR_MEMORY there).
-/

/-- A C string. -/
abbrev CStr := List Char

/-- Literal helper for C strings. -/
def cstr (s : String) : CStr := s.data

/- ------------------------------------------------------------------ -/
/- Fault manager (src/src/fault_manager.c)                             -/
/- ------------------------------------------------------------------ -/

/-- `struct fault_info`: one record of the shadow call list.  The slave is
identified by an id (the C code compares the `slave` pointers). -/
structure FaultInfo where
  slave : Nat
  timestamp : Int
  pkgname : CStr
  filename : CStr
  func : CStr
deriving DecidableEq, Repr

/-- The fault manager's `s_info`: the shadow call list and the global
fault-mark counter. -/
structure FMState where
  call_list : List FaultInfo
  fault_mark_count : Int
deriving DecidableEq, Repr

/-- A `fault_package` broadcast payload `(pkgname, filename, funcname)`. -/
abbrev Broadcast := CStr × CStr × CStr

/-- `fgets` on the log file reads up to and including the first newline. -/
def firstLine : CStr → CStr
  | [] => []
  | c :: rest => if c = '\n' then ['\n'] else c :: firstLine rest

/-- `fgets(pkgname, sizeof(pkgname), fp)`: `none` at immediate EOF
(empty file), otherwise the first line including its newline. -/
def fgetsLine (content : CStr) : Option CStr :=
  if content = [] then none else some (firstLine content)

/-- The counting loop
`for (i = 0; pattern[i] && (pattern[i] == pkgname[i]); i++);`
returns how many leading characters of `pattern` match. -/
def matchLen : CStr → CStr → Nat
  | [], _ => 0
  | _ :: _, [] => 0
  | p :: ps, c :: rest => if p = c then matchLen ps rest + 1 else 0

/-- The pattern `"liblive-"` of `check_log_file`. -/
def liblivePattern : CStr := cstr "liblive-"

/-- The parsing part of `check_log_file` on the line read by `fgets`:
check the `liblive-` pattern, check the `.so` tail
(`i = strlen(ptr) - 3; if (i <= 0 || strcmp(ptr + i, ".so")) ...`),
truncate it off. -/
def parseLogLine (pkgname : CStr) : Option CStr :=
  let i := matchLen liblivePattern pkgname
  if liblivePattern.length ≠ i then none
  else
    let ptr := pkgname.drop i
    if ptr.length ≤ 3 then none
    else if ptr.drop (ptr.length - 3) ≠ cstr ".so" then none
    else some (ptr.take (ptr.length - 3))

/-- `check_log_file(slave)`: parse the crash-log file content (`none` when
the file does not exist).  On success the C code also unlinks the file;
every caller ends by `clear_log_file`, so the file is gone on return of
`fault_check_pkgs` in all cases (see `fault_check_pkgs`). -/
def check_log_file (content : Option CStr) : Option CStr :=
  match content with
  | none => none
  | some c =>
    match fgetsLine c with
    | none => none
    | some pkgname => parseLogLine pkgname

/-- The `EINA_LIST_REVERSE_FOREACH_SAFE` loops of steps 1 and 2 of
`fault_check_pkgs` remove every record of the given slave and keep the
rest in order. -/
def removeSlaveRecords (s : Nat) (l : List FaultInfo) : List FaultInfo :=
  l.filter (fun r => r.slave != s)

/-- The step-3 loop of `fault_check_pkgs`, acting on the reversed call
list (the C code iterates the list in reverse).  The `checked` flag marks
whether a record was already attributed.  Records of the slave whose
package is not found (`package_find` fails) are skipped by `continue` and
stay in the list.  Returns the kept records (still reversed) and the
attributed record, if any. -/
def step3Rev (s : Nat) (pkgs : List CStr) : List FaultInfo → Bool → List FaultInfo × Option FaultInfo
  | [], _ => ([], none)
  | r :: rest, checked =>
    if r.slave == s then
      if pkgs.contains r.pkgname then
        let res := step3Rev s pkgs rest true
        (res.1, if checked then res.2 else some r)
      else
        let res := step3Rev s pkgs rest checked
        (r :: res.1, res.2)
    else
      let res := step3Rev s pkgs rest checked
      (r :: res.1, res.2)

/-- Step 3 of `fault_check_pkgs`: shadow-call-stack attribution.  The
broadcast carries the attributed record's values; the fault-mark counter
is reset. -/
def fault_check_step3 (s : Nat) (pkgs : List CStr) (st : FMState) : FMState × List Broadcast :=
  let res := step3Rev s pkgs st.call_list.reverse false
  (⟨res.1.reverse, 0⟩,
   match res.2 with
   | some r => [(r.pkgname, r.filename, r.func)]
   | none => [])

/-- Step 2 of `fault_check_pkgs`: secured-slave attribution.
`securedPkg` is the result of `package_find_by_secured_slave(slave)`; the
returned name is looked up again with `package_find` (membership in
`pkgs`). -/
def fault_check_step2 (s : Nat) (pkgs : List CStr) (securedPkg : Option CStr) (st : FMState) : FMState × List Broadcast :=
  match securedPkg with
  | some p =>
    if pkgs.contains p then
      (⟨removeSlaveRecords s st.call_list, 0⟩, [(p, [], [])])
    else fault_check_step3 s pkgs st
  | none => fault_check_step3 s pkgs st

/-- `fault_check_pkgs(slave)`.  Inputs: the slave id, the package registry
(`package_find` = membership), the secured-slave lookup result, the
crash-log file content, and the fault-manager state.  Outputs: the new
state, the log-file content after the call (every return path has
unlinked it, either in `check_log_file` or via `clear_log_file`), and the
`fault_broadcast_info` messages sent. -/
def fault_check_pkgs (s : Nat) (pkgs : List CStr) (securedPkg : Option CStr) (log : Option CStr) (st : FMState) : FMState × Option CStr × List Broadcast :=
  match check_log_file log with
  | some pkgname =>
    if pkgs.contains pkgname then
      (⟨removeSlaveRecords s st.call_list, 0⟩, none, [(pkgname, [], [])])
    else
      let r := fault_check_step2 s pkgs securedPkg st
      (r.1, none, r.2)
  | none =>
    let r := fault_check_step2 s pkgs securedPkg st
    (r.1, none, r.2)

/-- Error taxonomy of livebox-errno.h, as used by the two subsystems. -/
inductive LBStatus
  | success
  | already
  | invalid
  | notExist
  | memory
  | fault
deriving DecidableEq, Repr

/-- `fault_func_call(slave, pkgname, filename, func)`: append a record
(timestamped by `util_timestamp`, given here as input) and increment the
global mark counter.  Allocation is assumed to succeed. -/
def fault_func_call (s : Nat) (p f g : CStr) (ts : Int) (st : FMState) : FMState × LBStatus :=
  (⟨st.call_list ++ [⟨s, ts, p, f, g⟩], st.fault_mark_count + 1⟩, .success)

/-- Does a record match all four fields compared by `fault_func_ret`? -/
def matchesRec (s : Nat) (p f g : CStr) (r : FaultInfo) : Bool :=
  r.slave == s && r.pkgname == p && r.filename == f && r.func == g

/-- The `EINA_LIST_FOREACH` scan of `fault_func_ret`: remove the first
record (in list order) matching all four fields. -/
def removeFirstMatch (s : Nat) (p f g : CStr) : List FaultInfo → Option (List FaultInfo)
  | [] => none
  | r :: rest =>
    if matchesRec s p f g r then some rest
    else (removeFirstMatch s p f g rest).map (r :: ·)

/-- `fault_func_ret(slave, pkgname, filename, func)`: remove the first
exact match and decrement the counter; `NOT_EXIST` when no record
matches. -/
def fault_func_ret (s : Nat) (p f g : CStr) (st : FMState) : FMState × LBStatus :=
  match removeFirstMatch s p f g st.call_list with
  | some l => (⟨l, st.fault_mark_count - 1⟩, .success)
  | none => (st, .notExist)

/- ------------------------------------------------------------------ -/
/- Fault manager: helper lemmas                                        -/
/- ------------------------------------------------------------------ -/

lemma firstLine_of_no_newline : ∀ l : CStr, '\n' ∉ l → firstLine l = l := by
  intro l
  induction l with
  | nil => intro _; rfl
  | cons c rest ih =>
    intro h
    have hc : ¬(c = '\n') := by
      intro hc
      exact h (by rw [hc]; exact List.mem_cons_self _ _)
    have hr : '\n' ∉ rest := fun hr => h (List.mem_cons_of_mem c hr)
    unfold firstLine
    rw [if_neg hc, ih hr]

lemma matchLen_append : ∀ p r : CStr, matchLen p (p ++ r) = p.length := by
  intro p
  induction p with
  | nil => intro r; rfl
  | cons c rest ih => intro r; simp [matchLen, ih r]

lemma check_log_file_success (mid : CStr) (hne : mid ≠ []) (hnl : '\n' ∉ mid) :
    check_log_file (some (liblivePattern ++ mid ++ cstr ".so")) = some mid := by
  have hnl' : '\n' ∉ liblivePattern ++ mid ++ cstr ".so" := by
    simp only [List.mem_append]
    rintro ((h | h) | h)
    · exact absurd h (by decide)
    · exact hnl h
    · exact absurd h (by decide)
  have hnonnil : liblivePattern ++ mid ++ cstr ".so" ≠ [] := by
    simp [liblivePattern, cstr]
  have hfg : fgetsLine (liblivePattern ++ mid ++ cstr ".so")
      = some (liblivePattern ++ mid ++ cstr ".so") := by
    unfold fgetsLine
    rw [if_neg hnonnil, firstLine_of_no_newline _ hnl']
  have hml : matchLen liblivePattern (liblivePattern ++ mid ++ cstr ".so") = liblivePattern.length := by
    rw [List.append_assoc]; exact matchLen_append _ _
  have hpos : 0 < mid.length := List.length_pos.mpr hne
  have hdrop : (liblivePattern ++ mid ++ cstr ".so").drop liblivePattern.length = mid ++ cstr ".so" := by
    rw [List.append_assoc]; exact List.drop_left _ _
  have hlen : (mid ++ cstr ".so").length = mid.length + 3 := by
    simp [cstr]
  have hparse : parseLogLine (liblivePattern ++ mid ++ cstr ".so") = some mid := by
    unfold parseLogLine
    rw [hml, if_neg (by simp), hdrop]
    dsimp only
    rw [hlen]
    rw [if_neg (by omega)]
    have hsub : mid.length + 3 - 3 = mid.length := by omega
    rw [hsub]
    rw [if_neg (by rw [List.drop_left]; simp), List.take_left]
  simp only [check_log_file, hfg, hparse]

lemma step3Rev_spec (s : Nat) (pkgs : List CStr) : ∀ (l : List FaultInfo) (checked : Bool),
    step3Rev s pkgs l checked
      = (l.filter (fun r => !(r.slave == s && pkgs.contains r.pkgname)),
         if checked then none else l.find? (fun r => r.slave == s && pkgs.contains r.pkgname)) := by
  intro l
  induction l with
  | nil => intro checked; simp [step3Rev]
  | cons r rest ih =>
    intro checked
    by_cases h1 : r.slave = s
    · by_cases h2 : r.pkgname ∈ pkgs
      · cases checked <;>
          simp [step3Rev, h1, h2, ih, List.filter_cons, List.find?_cons]
      · cases checked <;>
          simp [step3Rev, h1, h2, ih, List.filter_cons, List.find?_cons]
    · cases checked <;>
        simp [step3Rev, h1, ih, List.filter_cons, List.find?_cons]

lemma removeFirstMatch_append_some (s : Nat) (p f g : CStr) (ts : Int) :
    ∀ l : List FaultInfo, ∃ l', removeFirstMatch s p f g (l ++ [⟨s, ts, p, f, g⟩]) = some l' := by
  intro l
  induction l with
  | nil => exact ⟨[], by simp [removeFirstMatch, matchesRec]⟩
  | cons r rest ih =>
    by_cases h : matchesRec s p f g r
    · exact ⟨rest ++ [⟨s, ts, p, f, g⟩], by simp [removeFirstMatch, h]⟩
    · obtain ⟨l', hl'⟩ := ih
      exact ⟨r :: l', by simp [removeFirstMatch, h, hl']⟩

lemma removeFirstMatch_append_clean (s : Nat) (p f g : CStr) (ts : Int) :
    ∀ l : List FaultInfo, (∀ r ∈ l, matchesRec s p f g r = false) →
      removeFirstMatch s p f g (l ++ [⟨s, ts, p, f, g⟩]) = some l := by
  intro l
  induction l with
  | nil => intro _; simp [removeFirstMatch, matchesRec]
  | cons r rest ih =>
    intro h
    have hr : matchesRec s p f g r = false := h r (List.mem_cons_self r rest)
    have hrest := ih (fun r' hr' => h r' (List.mem_cons_of_mem r hr'))
    simp [removeFirstMatch, hr, hrest]

/- ------------------------------------------------------------------ -/
/- Fault manager: claim theorems                                       -/
/- ------------------------------------------------------------------ -/

/-- Claim C4: for every slave and every prior state of the call list, log
file and fault-mark counter, the global `fault_mark_count` is zero
immediately after `fault_check_pkgs` returns, on every return path. -/
theorem fault_mark_count_zero_after_check (s : Nat) (pkgs : List CStr)
    (securedPkg : Option CStr) (log : Option CStr) (st : FMState) :
    (fault_check_pkgs s pkgs securedPkg log st).1.fault_mark_count = 0 := by
  have h3 : (fault_check_step3 s pkgs st).1.fault_mark_count = 0 := rfl
  have h2 : (fault_check_step2 s pkgs securedPkg st).1.fault_mark_count = 0 := by
    unfold fault_check_step2
    cases securedPkg with
    | none => exact h3
    | some p =>
      by_cases h : p ∈ pkgs
      · simp [h]
      · simp [h, h3]
  unfold fault_check_pkgs
  cases hc : check_log_file log with
  | none => exact h2
  | some pkgname =>
    by_cases h : pkgname ∈ pkgs
    · simp [h]
    · simp [h, h2]

/-- Claim C1 (counterexample): with the spec's scenario-3 file content
`"liblive-foo.so\n"` the trailing newline kept by `fgets` makes the
`.so`-extension check of `check_log_file` fail, so the fault is NOT
attributed to `foo` even though `foo` is a registered package — the
shadow call stack is consulted instead (second conjunct: the same content
without the newline does attribute to the registered package; third
conjunct: even without the newline, an unregistered package is not
broadcast). -/
theorem log_attribution_claim_cex :
    ((fault_check_pkgs 200 [cstr "foo", cstr "bar"] none (some (cstr "liblive-foo.so\n"))
        ⟨[⟨200, 5, cstr "bar", cstr "f.c", cstr "fn"⟩], 1⟩).2.2
      ≠ [(cstr "foo", [], [])])
    ∧ ((fault_check_pkgs 200 [cstr "baz"] none (some (cstr "liblive-baz.so")) ⟨[], 0⟩).2.2
      = [(cstr "baz", [], [])])
    ∧ ((fault_check_pkgs 200 [] none (some (cstr "liblive-baz.so")) ⟨[], 0⟩).2.2
      ≠ [(cstr "baz", [], [])]) := by
  refine ⟨by decide, by decide, by decide⟩

/-- Claim C1 (amended): for every slave whose crash-log file consists of
the single line `liblive-<mid>.so` with NO trailing newline (the newline
read back by `fgets` makes the extension check fail), with `<mid>`
nonempty and naming a REGISTERED package, `fault_check_pkgs` extracts
`<mid>`, publishes one fault broadcast with empty file/function for it,
removes every pending call record of this slave, resets the fault-mark
counter to zero, deletes the log file, and returns without consulting the
shadow call stack (the result is the same for every call-list content,
which is only filtered). -/
theorem log_attribution_amended (s : Nat) (mid : CStr) (pkgs : List CStr)
    (securedPkg : Option CStr) (st : FMState)
    (hne : mid ≠ []) (hnl : '\n' ∉ mid) (hreg : mid ∈ pkgs) :
    fault_check_pkgs s pkgs securedPkg (some (liblivePattern ++ mid ++ cstr ".so")) st
      = (⟨removeSlaveRecords s st.call_list, 0⟩, none, [(mid, [], [])]) := by
  unfold fault_check_pkgs
  rw [check_log_file_success mid hne hnl]
  simp [hreg]

/-- Witness for `log_attribution_amended` at file content
`"liblive-foo.so"`. -/
theorem log_attribution_amended_witness :
    fault_check_pkgs 7 [cstr "foo"] none (some (cstr "liblive-foo.so"))
        ⟨[⟨7, 1, cstr "q", [], []⟩, ⟨8, 2, cstr "r", [], []⟩], 3⟩
      = (⟨[⟨8, 2, cstr "r", [], []⟩], 0⟩, none, [(cstr "foo", [], [])]) := by
  have h := log_attribution_amended 7 (cstr "foo") [cstr "foo"] none
    ⟨[⟨7, 1, cstr "q", [], []⟩, ⟨8, 2, cstr "r", [], []⟩], 3⟩
    (by decide) (by decide) (by decide)
  rw [show cstr "liblive-foo.so" = liblivePattern ++ cstr "foo" ++ cstr ".so" from by decide]
  exact h.trans (by decide)

/-- State used by the C5 counterexample and witness: one outstanding call
record for slave 1 with timestamp 0. -/
def faultCallRetState : FMState := ⟨[⟨1, 0, cstr "p", cstr "f", cstr "g"⟩], 1⟩

/-- Claim C5 (counterexample): `fault_func_call` followed by
`fault_func_ret` with the same arguments does NOT restore the call list
when an identical `(slave, pkg, file, func)` record already existed: the
return removes the EARLIER record (forward scan, first exact match), not
the one the call appended, so the appended record (with its fresh
timestamp) survives at the tail. -/
theorem fault_call_ret_roundtrip_cex :
    (fault_func_ret 1 (cstr "p") (cstr "f") (cstr "g")
        ((fault_func_call 1 (cstr "p") (cstr "f") (cstr "g") 5 faultCallRetState).1)).1
      ≠ faultCallRetState := by
  decide

/-- Claim C5 (amended): `fault_func_call(s,p,f,g)` followed by
`fault_func_ret(s,p,f,g)` always restores the fault-mark counter exactly,
and restores the whole state exactly whenever no record matching
`(s,p,f,g)` was already in the call list (the return removes the first
exact match in list order, which is then the appended record). -/
theorem fault_call_ret_roundtrip (s : Nat) (p f g : CStr) (ts : Int) (st : FMState) :
    ((fault_func_ret s p f g (fault_func_call s p f g ts st).1).1.fault_mark_count
        = st.fault_mark_count)
    ∧ ((∀ r ∈ st.call_list, matchesRec s p f g r = false) →
        (fault_func_ret s p f g (fault_func_call s p f g ts st).1).1 = st) := by
  constructor
  · obtain ⟨l', hl'⟩ := removeFirstMatch_append_some s p f g ts st.call_list
    unfold fault_func_call fault_func_ret
    simp only [hl']
    omega
  · intro hclean
    have h := removeFirstMatch_append_clean s p f g ts st.call_list hclean
    unfold fault_func_call fault_func_ret
    simp only [h]
    obtain ⟨cl, c⟩ := st
    simp

/-- Witness for `fault_call_ret_roundtrip` on the empty call list. -/
theorem fault_call_ret_roundtrip_witness :
    (fault_func_ret 2 (cstr "pkg") (cstr "file") (cstr "fn")
        ((fault_func_call 2 (cstr "pkg") (cstr "file") (cstr "fn") 7 ⟨[], 3⟩).1)).1
      = (⟨[], 3⟩ : FMState) :=
  (fault_call_ret_roundtrip 2 (cstr "pkg") (cstr "file") (cstr "fn") 7 ⟨[], 3⟩).2
    (by decide)

/-- Call list used by the C6 counterexample and witness: slave 3 called
into registered package `foo`, then (most recently) into package `ghost`
which is NOT in the package registry. -/
def shadowCexList : List FaultInfo :=
  [⟨3, 1, cstr "foo", cstr "f.c", cstr "do_work"⟩,
   ⟨3, 2, cstr "ghost", cstr "g.c", cstr "other"⟩]

/-- Claim C6 (counterexample): in the shadow-call-stack step the reverse
walk SKIPS records whose package is not registered (`package_find`
fails): the fault is attributed to the older `foo` record instead of the
most recent `ghost` record, and the `ghost` record is left in the call
list, so not all of this slave's records are removed. -/
theorem shadow_attribution_claim_cex :
    ((fault_check_pkgs 3 [cstr "foo"] none none ⟨shadowCexList, 2⟩).2.2
      ≠ [(cstr "ghost", cstr "g.c", cstr "other")])
    ∧ ((fault_check_pkgs 3 [cstr "foo"] none none ⟨shadowCexList, 2⟩).1.call_list
      ≠ []) := by
  refine ⟨by decide, by decide⟩

/-- Claim C6 (amended): when `fault_check_pkgs` reaches the
shadow-call-stack step (no log-file match, no secured-slave match), it
attributes the fault to the most recently appended call record of the
crashing slave WHOSE PACKAGE IS REGISTERED (first such record of the
reversed list), broadcasts that record's `(package, file, function)`,
treats the other registered-package records of this slave as false logs
and removes them together with the attributed one; records of this slave
whose package is not registered are skipped and remain in the list. -/
theorem shadow_attribution_amended (s : Nat) (pkgs : List CStr)
    (securedPkg : Option CStr) (log : Option CStr) (st : FMState)
    (hlog : check_log_file log = none) (hsec : securedPkg = none) :
    fault_check_pkgs s pkgs securedPkg log st
      = (⟨st.call_list.filter (fun r => !(r.slave == s && pkgs.contains r.pkgname)), 0⟩,
         none,
         match st.call_list.reverse.find? (fun r => r.slave == s && pkgs.contains r.pkgname) with
         | some r => [(r.pkgname, r.filename, r.func)]
         | none => []) := by
  unfold fault_check_pkgs
  rw [hlog, hsec]
  unfold fault_check_step2 fault_check_step3
  rw [step3Rev_spec]
  simp [List.filter_reverse]

/-- Witness for `shadow_attribution_amended` on `shadowCexList`. -/
theorem shadow_attribution_amended_witness :
    fault_check_pkgs 3 [cstr "foo"] none none ⟨shadowCexList, 2⟩
      = (⟨[⟨3, 2, cstr "ghost", cstr "g.c", cstr "other"⟩], 0⟩, none,
         [(cstr "foo", cstr "f.c", cstr "do_work")]) := by
  have h := shadow_attribution_amended 3 [cstr "foo"] none none ⟨shadowCexList, 2⟩ rfl rfl
  exact h.trans (by decide)

/- ------------------------------------------------------------------ -/
/- Slave lifecycle supervisor (src/src/slave_life.c)                   -/
/- ------------------------------------------------------------------ -/

/-- `enum slave_state`. -/
inductive SlaveState
  | requestToLaunch
  | requestToTerminate
  | terminated
  | requestToPause
  | requestToResume
  | paused
  | resumed
  | error
deriving DecidableEq, Repr

/-- `struct timeval` as used for `activated_at` (the build without
`_USE_ECORE_TIME_GET`, see `USE_ECORE_TIME_GET`). -/
structure Timeval where
  sec : Int
  usec : Int
deriving DecidableEq, Repr

/-- The `timersub` macro: componentwise difference with microsecond
borrow. -/
def timersub (a b : Timeval) : Timeval :=
  let s := a.sec - b.sec
  let u := a.usec - b.usec
  if u < 0 then ⟨s - 1, u + 1000000⟩ else ⟨s, u⟩

/-- `struct slave_node`.  The event callback lists and the `data_list`
scratchpad are owned by external observers; what the claims need about
them (invocation, freeing) is tracked through `Effects`.  The three
`Ecore_Timer` handles are modelled by whether the record currently holds
one.  `pid` is an `Int` with the C sentinel `-1`. -/
structure SlaveNode where
  name : CStr
  abi : CStr
  pkgname : CStr
  secured : Bool
  refcnt : Int
  fault_count : Int
  critical_fault_count : Int
  state : SlaveState
  network : Bool
  loaded_instance : Int
  loaded_package : Int
  reactivate_instances : Bool
  reactivate_slave : Bool
  pid : Int
  ttl_timer : Bool
  activate_timer : Bool
  relaunch_timer : Bool
  relaunch_count : Int
  activated_at : Timeval
deriving DecidableEq, Repr

/-- The tunables read from conf.h/conf.c at startup. -/
structure Conf where
  slave_max_load : Int
  minimum_reactivation_time : Int
  slave_relaunch_count : Int
  default_abi : CStr
deriving Repr

/-- Result classes of `aul_launch_app`, exactly as the switch of
`slave_activate` groups them: the fatal family
(ENOLAUNCHPAD/EILLACC/EINVAL/ENOINIT/ERROR), the retryable family
(ETIMEOUT/ECOMM/ETERMINATING/ECANCELED), and everything else
(LOCAL/OK/default), which carries the launched pid. -/
inductive LaunchResult
  | fatal (code : Int)
  | retryable (code : Int)
  | ok (pid : Int)
deriving DecidableEq, Repr

/-- Results of the external collaborators (launcher, bundle and packet
allocation, timer registration, RPC transport, display monitor, clock,
process termination, deactivate-callback votes), provided as inputs. -/
structure Env where
  debugMode : Bool
  bundleOk : Bool
  launch : LaunchResult
  activateTimerOk : Bool
  relaunchTimerOk : Bool
  ttlTimerOk : Bool
  packetOk : Bool
  rpcResult : LBStatus
  xmonitorPaused : Bool
  gettimeofdayOk : Bool
  terminateRet : Int
  deactVotes : Int
deriving Repr

/-- Observable side effects of a supervisor operation. -/
structure Effects where
  launched : Bool := false
  faultCb : Bool := false
  activateCb : Bool := false
  deactivateCb : Bool := false
  deleteCb : Bool := false
  errorReported : Bool := false
  removedFromRegistry : Bool := false
  listsFreed : Bool := false
  timersCancelled : Bool := false
  rpcSent : Bool := false
deriving DecidableEq, Repr

/-- Pointwise disjunction of effect sets of two consecutive operations. -/
def Effects.merge (a b : Effects) : Effects :=
  ⟨a.launched || b.launched, a.faultCb || b.faultCb, a.activateCb || b.activateCb,
   a.deactivateCb || b.deactivateCb, a.deleteCb || b.deleteCb,
   a.errorReported || b.errorReported, a.removedFromRegistry || b.removedFromRegistry,
   a.listsFreed || b.listsFreed, a.timersCancelled || b.timersCancelled,
   a.rpcSent || b.rpcSent⟩

/-- `slave_is_activated`: REQUEST_TO_TERMINATE and TERMINATED are
inactive, the five launch/pause/resume states are active, and the
`default` branch tests `pid != -1`. -/
def slave_is_activated (s : SlaveNode) : Bool :=
  match s.state with
  | .requestToTerminate | .terminated => false
  | .requestToLaunch | .requestToPause | .requestToResume | .paused | .resumed => true
  | .error => s.pid != -1

/-- `slave_ref`. -/
def slave_ref (s : SlaveNode) : SlaveNode :=
  { s with refcnt := s.refcnt + 1 }

/-- `destroy_slave_node`: refuses (with an error report and no other
effect) when the slave still has a pid; otherwise fires delete callbacks,
finalises RPC, frees the event lists and the data scratchpad, removes the
record from `s_info.slave_list` and deletes its timers. -/
def destroy_slave_node (s : SlaveNode) : Option SlaveNode × Effects :=
  if s.pid != -1 then (some s, { errorReported := true })
  else (none, { deleteCb := true, removedFromRegistry := true, listsFreed := true,
                timersCancelled := true })

/-- Result of `slave_unref`: the returned pointer (NULL whenever the
refcount reached zero, even if destruction was refused), the surviving
record if any, and the effects. -/
structure UnrefResult where
  ret : Option SlaveNode
  record : Option SlaveNode
  eff : Effects
deriving Repr

/-- `slave_unref`. -/
def slave_unref (s : SlaveNode) : UnrefResult :=
  if s.refcnt == 0 then ⟨none, some s, { errorReported := true }⟩
  else
    let s1 : SlaveNode := { s with refcnt := s.refcnt - 1 }
    if s1.refcnt == 0 then
      let d := destroy_slave_node s1
      ⟨none, d.1, d.2⟩
    else ⟨some s1, some s1, {}⟩

/-- `slave_activate`, lines 531-619.  Returns the status, the slave
record afterwards, and the effects (`launched` records whether
`aul_launch_app` was invoked). -/
def slave_activate (cf : Conf) (env : Env) (s : SlaveNode) : LBStatus × SlaveNode × Effects :=
  if s.pid != -1 then
    (.already,
     (if s.state == .requestToTerminate then { s with reactivate_slave := true } else s),
     {})
  else if s.state == .requestToLaunch then
    (.already, s, {})
  else if env.debugMode then
    (.success, slave_ref { s with state := .requestToLaunch }, {})
  else
    let s0 := { s with relaunch_count := cf.slave_relaunch_count }
    if !env.bundleOk then (.fault, s0, {})
    else
      match env.launch with
      | .fatal _ =>
        let s1 := { s0 with pid := -1, activate_timer := env.activateTimerOk }
        (.success, slave_ref { s1 with state := .requestToLaunch }, { launched := true })
      | .retryable code =>
        if env.relaunchTimerOk then
          let s1 := { s0 with pid := code, relaunch_timer := true, activate_timer := env.activateTimerOk }
          (.success, slave_ref { s1 with state := .requestToLaunch }, { launched := true })
        else
          (.fault, { s0 with pid := -1 }, { launched := true })
      | .ok p =>
        let s1 := { s0 with pid := p, activate_timer := env.activateTimerOk }
        (.success, slave_ref { s1 with state := .requestToLaunch }, { launched := true })

/-- `invoke_deactivate_cb` returns how many deactivate callbacks voted
`SLAVE_NEED_TO_REACTIVATE`; the votes come from the environment. -/
def invoke_deactivate_cb (env : Env) : Int := env.deactVotes

/-- `slave_deactivated`, lines 761-809: clear pid, transition to
Terminated, delete all timers, fire deactivate callbacks, drop the
launch-time reference; then either auto-relaunch (votes and
`reactivate_slave` flag both set) or, with no loaded instances, drop the
registry reference. -/
def slave_deactivated (cf : Conf) (env : Env) (s : SlaveNode) : Option SlaveNode × Effects :=
  let s1 := { s with pid := -1, state := .terminated, ttl_timer := false, activate_timer := false, relaunch_timer := false }
  let reactivate := invoke_deactivate_cb env
  let e0 : Effects := { deactivateCb := true }
  let u := slave_unref s1
  match u.ret with
  | none => (none, e0.merge u.eff)
  | some s2 =>
    if reactivate != 0 && s2.reactivate_slave then
      let a := slave_activate cf env s2
      (some a.2.1, (e0.merge u.eff).merge a.2.2)
    else if s2.loaded_instance == 0 then
      let u2 := slave_unref s2
      (u2.ret, (e0.merge u.eff).merge u2.eff)
    else (some s2, e0.merge u.eff)

/-- `slave_deactivate`, lines 726-759: on an already-inactive slave,
report and possibly destroy an instance-less record; otherwise request
termination and, if terminating the pid fails, run `slave_deactivated`
immediately. -/
def slave_deactivate (cf : Conf) (env : Env) (s : SlaveNode) : Option SlaveNode × Effects :=
  if !(slave_is_activated s) then
    let e0 : Effects := { errorReported := true }
    if s.loaded_instance == 0 then
      let u := slave_unref s
      (u.ret, e0.merge u.eff)
    else (some s, e0)
  else
    let s1 := { s with state := .requestToTerminate }
    if s1.pid > 0 then
      if env.terminateRet < 0 then slave_deactivated cf env s1
      else (some s1, {})
    else (some s1, {})

/-- `slave_resume`, lines 1383-1410: invalid in launch/terminate states,
a no-op success when already resumed or resuming, otherwise send the
`resume` RPC and transition to RequestToResume. -/
def slave_resume (env : Env) (s : SlaveNode) : LBStatus × SlaveNode × Effects :=
  match s.state with
  | .requestToLaunch | .requestToTerminate | .terminated => (.invalid, s, {})
  | .resumed | .requestToResume => (.success, s, {})
  | _ =>
    if !env.packetOk then (.fault, s, {})
    else (env.rpcResult, { s with state := .requestToResume }, { rpcSent := true })

/-- `slave_pause`, lines 1412-1439: symmetric to `slave_resume`. -/
def slave_pause (env : Env) (s : SlaveNode) : LBStatus × SlaveNode × Effects :=
  match s.state with
  | .requestToLaunch | .requestToTerminate | .terminated => (.invalid, s, {})
  | .paused | .requestToPause => (.success, s, {})
  | _ =>
    if !env.packetOk then (.fault, s, {})
    else (env.rpcResult, { s with state := .requestToPause }, { rpcSent := true })

/-- `slave_activated`, lines 659-701 (the "hello" handshake): transition
to Resumed, pause immediately if the display monitor is paused, arm the
TTL timer iff secured, fire activate callbacks, clear both reactivation
flags, record `activated_at` (zero when `gettimeofday` fails), and delete
the activate and relaunch timers. -/
def slave_activated (env : Env) (now : Timeval) (s : SlaveNode) : SlaveNode × Effects :=
  let s1 := { s with state := SlaveState.resumed }
  let pr := if env.xmonitorPaused then slave_pause env s1 else (.success, s1, ({} : Effects))
  let s2 := pr.2.1
  let s3 := if s2.secured then { s2 with ttl_timer := env.ttlTimerOk } else s2
  let at0 := if env.gettimeofdayOk then now else ⟨0, 0⟩
  let s4 := { s3 with reactivate_slave := false, reactivate_instances := false, activated_at := at0, activate_timer := false, relaunch_timer := false }
  (s4, { pr.2.2 with activateCb := true })

/-- Modelled from the spec: the `_USE_ECORE_TIME_GET` compile flag is set
(or not) by the build system, which is not among the sources here.  The
spec's fault-driven deactivation ("if below MINIMUM_REACTIVATION_TIME,
increment critical_fault_count; if that count reaches SLAVE_MAX_LOAD or
there are no loaded instances, clear both reactivation flags and fire
fault-callbacks") requires the counter to accumulate across consecutive
fast crashes, which is the behaviour of the `#else` (gettimeofday) branch
of `slave_deactivated_by_fault`; the `#if defined(_USE_ECORE_TIME_GET)`
branch resets the counter after every sub-threshold fast crash (see
`fault_time_policy_ecore`).  The flag is therefore modelled as disabled. -/
def USE_ECORE_TIME_GET : Bool := false

/-- The critical-fault bookkeeping of `slave_deactivated_by_fault`,
`#else` (gettimeofday) branch, lines 861-885 plus the flag initialisation
(`reactivate = 1; reactivate_instances = 1`): returns the updated record,
the two flags, and whether the fault callbacks were fired. -/
def fault_time_policy_timeval (cf : Conf) (s : SlaveNode) (faulted_at : Timeval) : SlaveNode × Bool × Bool × Bool :=
  let rtv := timersub faulted_at s.activated_at
  if rtv.sec < cf.minimum_reactivation_time then
    let s1 := { s with critical_fault_count := s.critical_fault_count + 1 }
    if s1.loaded_instance == 0 || cf.slave_max_load ≤ s1.critical_fault_count then
      ({ s1 with critical_fault_count := 0 }, false, false, true)
    else (s1, true, true, false)
  else ({ s with critical_fault_count := 0 }, true, true, false)

/-- The `#if defined(_USE_ECORE_TIME_GET)` branch, lines 839-859, for
comparison (the `ecore_time_get` double-valued clock is abstracted to an
integer-valued one; only the ordering against MINIMUM_REACTIVATION_TIME
matters).  Note its `else` is attached to the INNER `if`, so the counter
is reset to zero after every fast crash that stays below the threshold:
the counter never accumulates in this branch. -/
def fault_time_policy_ecore (cf : Conf) (s : SlaveNode) (faulted_at activated_at : Int) : SlaveNode × Bool × Bool × Bool :=
  if faulted_at - activated_at < cf.minimum_reactivation_time then
    let s1 := { s with critical_fault_count := s.critical_fault_count + 1 }
    if s1.loaded_instance == 0 || cf.slave_max_load ≤ s1.critical_fault_count then
      ({ s1 with critical_fault_count := 0 }, false, false, true)
    else ({ s1 with critical_fault_count := 0 }, true, true, false)
  else (s, true, true, false)

/-- `slave_deactivated_by_fault`, lines 811-893 (with
`USE_ECORE_TIME_GET` modelled as disabled, so the gettimeofday branch is
compiled): guard against an already-inactive slave, count the fault, run
`fault_check_pkgs` (which acts on the separately modelled fault-manager
state) and terminate the pid (OS effects), apply the critical-fault
policy, store the two reactivation flags, and finish through
`slave_deactivated`. -/
def slave_deactivated_by_fault (cf : Conf) (env : Env) (s : SlaveNode) (faulted_at : Timeval) : Option SlaveNode × Effects :=
  if !(slave_is_activated s) then
    if s.loaded_instance == 0 then
      let u := slave_unref s
      (u.ret, u.eff)
    else (some s, {})
  else
    let s1 := { s with fault_count := s.fault_count + 1 }
    let p := if env.gettimeofdayOk then fault_time_policy_timeval cf s1 faulted_at else (s1, true, true, false)
    let s2 := { p.1 with reactivate_slave := p.2.1, reactivate_instances := p.2.2.1 }
    let d := slave_deactivated cf env s2
    (d.1, if p.2.2.2 then { d.2 with faultCb := true } else d.2)

/-- `strcasecmp(a, b) == 0`. -/
def strcaseEq (a b : CStr) : Bool :=
  a.map Char.toLower == b.map Char.toLower

/-- `slave_find_available`, lines 1128-1173, as the loop over
`s_info.slave_list` in insertion order. -/
def slave_find_available (cf : Conf) (abi : CStr) (secured network : Bool) : List SlaveNode → Option SlaveNode
  | [] => none
  | sl :: rest =>
    if sl.secured != secured then
      slave_find_available cf abi secured network rest
    else if sl.state == .requestToTerminate && sl.loaded_instance == 0 then
      slave_find_available cf abi secured network rest
    else if !(strcaseEq sl.abi abi) then
      slave_find_available cf abi secured network rest
    else if sl.secured then
      if sl.loaded_package == 0 then some sl
      else slave_find_available cf abi secured network rest
    else if sl.network == network then
      if strcaseEq abi cf.default_abi then
        if sl.loaded_package < cf.slave_max_load then some sl
        else slave_find_available cf abi secured network rest
      else some sl
    else slave_find_available cf abi secured network rest

/-- The selection predicate in the words of the spec (§4.2
`find_available` selection algorithm), to be compared with the source
translation `slave_find_available`. -/
def availableSpec (cf : Conf) (abi : CStr) (secured network : Bool) (sl : SlaveNode) : Bool :=
  decide (sl.secured = secured)
  && decide (¬(sl.state = SlaveState.requestToTerminate ∧ sl.loaded_instance = 0))
  && strcaseEq sl.abi abi
  && (if secured then decide (sl.loaded_package = 0)
      else decide (sl.network = network)
        && (!(strcaseEq abi cf.default_abi) || decide (sl.loaded_package < cf.slave_max_load)))

/-- `slave_load_package`. -/
def slave_load_package (s : SlaveNode) : SlaveNode :=
  { s with loaded_package := s.loaded_package + 1 }

/-- `slave_unload_package`, lines 1216-1224: reported no-op at zero. -/
def slave_unload_package (s : SlaveNode) : SlaveNode × Effects :=
  if s.loaded_package == 0 then (s, { errorReported := true })
  else ({ s with loaded_package := s.loaded_package - 1 }, {})

/-- `slave_load_instance`. -/
def slave_load_instance (s : SlaveNode) : SlaveNode :=
  { s with loaded_instance := s.loaded_instance + 1 }

/-- `slave_unload_instance`, lines 1242-1259: reported no-op at zero;
when the count drops to zero on an activated slave, clear both
reactivation flags and deactivate. -/
def slave_unload_instance (cf : Conf) (env : Env) (s : SlaveNode) : Option SlaveNode × Effects :=
  if s.loaded_instance == 0 then (some s, { errorReported := true })
  else
    let s1 := { s with loaded_instance := s.loaded_instance - 1 }
    if s1.loaded_instance == 0 && slave_is_activated s1 then
      let s2 := { s1 with reactivate_slave := false, reactivate_instances := false }
      slave_deactivate cf env s2
    else (s1, ({} : Effects)) |> fun r => (some r.1, r.2)

/- ------------------------------------------------------------------ -/
/- Supervisor: claim theorems                                          -/
/- ------------------------------------------------------------------ -/

/-- Claim C3: `slave_find_available(abi, secured, network)` returns the
first slave in registry insertion order satisfying all of the spec's
conditions (secured match; not RequestedTerminate-with-no-instances;
case-insensitive abi match; secured ⇒ no loaded package; otherwise
network match and (abi ≠ DEFAULT_ABI or load below SLAVE_MAX_LOAD)), and
`none` when no slave satisfies them (`List.find?` returns exactly that). -/
theorem find_available_follows_spec (cf : Conf) (abi : CStr) (secured network : Bool)
    (l : List SlaveNode) :
    slave_find_available cf abi secured network l
      = l.find? (availableSpec cf abi secured network) := by
  induction l with
  | nil => rfl
  | cons sl rest ih =>
    rw [List.find?_cons]
    simp only [slave_find_available]
    by_cases h1 : sl.secured = secured
    · subst h1
      by_cases h2 : sl.state = SlaveState.requestToTerminate ∧ sl.loaded_instance = 0
      · have hp : availableSpec cf abi sl.secured network sl = false := by
          simp [availableSpec, h2.1, h2.2]
        simp [h2.1, h2.2, hp, ih]
      · have hb2 : (sl.state == SlaveState.requestToTerminate && sl.loaded_instance == 0) = false := by
          by_cases hs : sl.state = SlaveState.requestToTerminate
          · have hl : ¬sl.loaded_instance = 0 := fun hl => h2 ⟨hs, hl⟩
            simp [hs, hl]
          · simp [hs]
        by_cases h3 : strcaseEq sl.abi abi = true
        · by_cases h4 : sl.secured = true
          · rw [h4] at ih
            by_cases h5 : sl.loaded_package = 0
            · have hp : availableSpec cf abi true network sl = true := by
                simp [availableSpec, h2, h3, h4, h5]
              simp [hb2, h3, h4, h5, hp]
            · have hp : availableSpec cf abi true network sl = false := by
                simp [availableSpec, h4, h5]
              simp [hb2, h3, h4, h5, hp, ih]
          · have hsf : sl.secured = false := by
              cases hs : sl.secured
              · rfl
              · exact absurd hs h4
            rw [hsf] at ih
            by_cases h6 : sl.network = network
            · by_cases h7 : strcaseEq abi cf.default_abi = true
              · by_cases h8 : sl.loaded_package < cf.slave_max_load
                · have hp : availableSpec cf abi false network sl = true := by
                    simp [availableSpec, h2, h3, h6, h7, h8, hsf]
                  simp [hb2, h3, h6, h7, h8, hp, hsf]
                · have hp : availableSpec cf abi false network sl = false := by
                    simp [availableSpec, h6, h7, h8, hsf]
                  simp [hb2, h3, h6, h7, h8, hp, ih, hsf]
              · have hf7 : strcaseEq abi cf.default_abi = false := by
                  cases hs : strcaseEq abi cf.default_abi
                  · rfl
                  · exact absurd hs h7
                have hp : availableSpec cf abi false network sl = true := by
                  simp [availableSpec, h2, h3, h6, hf7, hsf]
                simp [hb2, h3, h6, hf7, hp, hsf]
            · have hp : availableSpec cf abi false network sl = false := by
                simp [availableSpec, h6, hsf]
              simp [hb2, h3, h6, hp, ih, hsf]
        · have hf3 : strcaseEq sl.abi abi = false := by
            cases hs : strcaseEq sl.abi abi
            · rfl
            · exact absurd hs h3
          have hp : availableSpec cf abi sl.secured network sl = false := by
            simp [availableSpec, hf3]
          simp [hb2, hf3, hp, ih]
    · have hp : availableSpec cf abi secured network sl = false := by
        simp [availableSpec, h1]
      simp [h1, hp, ih]

/-- A sample configuration for concrete witnesses. -/
def sampleConf : Conf := ⟨2, 10, 3, cstr "c"⟩

/-- A sample environment for concrete witnesses: no debug mode,
allocations and timers succeed, the launcher returns pid 5, the display
monitor is not paused, `gettimeofday` succeeds, one deactivate callback
votes to reactivate. -/
def sampleEnv : Env := ⟨false, true, .ok 5, true, true, true, true, .success, false, true, 0, 1⟩

/-- A sample activated slave record for concrete witnesses. -/
def baseSlave : SlaveNode :=
  ⟨cstr "S1", cstr "c", cstr "org.pkg", false, 2, 0, 0, .resumed, false, 1, 0,
   false, false, 100, false, false, false, 3, ⟨0, 0⟩⟩

/-- Claim C7: `slave_activate` is idempotent: with `pid ≠ none` it
returns ALREADY without invoking the launcher (setting the reactivation
flag exactly when the state is RequestedTerminate), and in state
RequestedLaunch it returns ALREADY without invoking the launcher; in both
cases the state, pid and all three timers are unchanged. -/
theorem slave_activate_idempotent (cf : Conf) (env : Env) (s : SlaveNode)
    (h : s.pid ≠ -1 ∨ s.state = SlaveState.requestToLaunch) :
    (slave_activate cf env s).1 = .already
    ∧ (slave_activate cf env s).2.2.launched = false
    ∧ (slave_activate cf env s).2.1.state = s.state
    ∧ (slave_activate cf env s).2.1.pid = s.pid
    ∧ (slave_activate cf env s).2.1.ttl_timer = s.ttl_timer
    ∧ (slave_activate cf env s).2.1.activate_timer = s.activate_timer
    ∧ (slave_activate cf env s).2.1.relaunch_timer = s.relaunch_timer
    ∧ (s.state = SlaveState.requestToTerminate →
        (slave_activate cf env s).2.1 = { s with reactivate_slave := true })
    ∧ (s.state ≠ SlaveState.requestToTerminate → (slave_activate cf env s).2.1 = s) := by
  rcases h with h | h
  · by_cases h2 : s.state = SlaveState.requestToTerminate
    · simp [slave_activate, h, h2]
    · simp [slave_activate, h, h2]
  · by_cases hp : s.pid = -1
    · have h2 : s.state ≠ SlaveState.requestToTerminate := by rw [h]; intro hc; cases hc
      simp [slave_activate, h, hp, h2]
    · have h2 : s.state ≠ SlaveState.requestToTerminate := by rw [h]; intro hc; cases hc
      simp [slave_activate, hp, h2]

/-- Witness for `slave_activate_idempotent`: `baseSlave` has pid 100. -/
theorem slave_activate_idempotent_witness :
    (slave_activate sampleConf sampleEnv baseSlave).1 = .already
    ∧ (slave_activate sampleConf sampleEnv baseSlave).2.1 = baseSlave := by
  have h := slave_activate_idempotent sampleConf sampleEnv baseSlave (Or.inl (by decide))
  exact ⟨h.1, h.2.2.2.2.2.2.2.2 (by decide)⟩

/-- Claim C8: `slave_resume` on a Resumed (or RequestedResume) slave
returns OK and leaves the record unchanged without sending an RPC;
`slave_pause` on a Paused (or RequestedPause) slave likewise; in states
RequestedLaunch, RequestedTerminate and Terminated both return INVALID
without sending an RPC or changing the record. -/
theorem slave_resume_pause_noop (env : Env) (s : SlaveNode) :
    ((s.state = SlaveState.resumed ∨ s.state = SlaveState.requestToResume) →
      slave_resume env s = (.success, s, {}))
    ∧ ((s.state = SlaveState.paused ∨ s.state = SlaveState.requestToPause) →
      slave_pause env s = (.success, s, {}))
    ∧ ((s.state = SlaveState.requestToLaunch ∨ s.state = SlaveState.requestToTerminate
          ∨ s.state = SlaveState.terminated) →
      slave_resume env s = (.invalid, s, {}) ∧ slave_pause env s = (.invalid, s, {})) := by
  refine ⟨?_, ?_, ?_⟩
  · rintro (h | h) <;> simp [slave_resume, h]
  · rintro (h | h) <;> simp [slave_pause, h]
  · rintro (h | h | h) <;> exact ⟨by simp [slave_resume, h], by simp [slave_pause, h]⟩

/-- Witness for `slave_resume_pause_noop`: `baseSlave` is Resumed. -/
theorem slave_resume_pause_noop_witness :
    slave_resume sampleEnv baseSlave = (.success, baseSlave, {}) :=
  (slave_resume_pause_noop sampleEnv baseSlave).1 (Or.inl (by decide))

/-- Claim C9: dropping the last reference of a record whose `pid ≠ none`
reports an error and does not destroy it: the record survives (only the
refcount is now zero), it is not removed from the registry, its event
lists and data scratchpad are not freed, its delete callbacks do not
fire, and its timers are not cancelled. -/
theorem slave_unref_pid_guard (s : SlaveNode) (hpid : s.pid ≠ -1) (href : s.refcnt = 1) :
    (slave_unref s).ret = none
    ∧ (slave_unref s).record = some { s with refcnt := 0 }
    ∧ (slave_unref s).eff.errorReported = true
    ∧ (slave_unref s).eff.removedFromRegistry = false
    ∧ (slave_unref s).eff.listsFreed = false
    ∧ (slave_unref s).eff.timersCancelled = false
    ∧ (slave_unref s).eff.deleteCb = false := by
  simp [slave_unref, destroy_slave_node, href, hpid]

/-- Witness for `slave_unref_pid_guard` at a record with pid 100 and one
reference. -/
theorem slave_unref_pid_guard_witness :
    (slave_unref { baseSlave with refcnt := 1 }).ret = none
    ∧ (slave_unref { baseSlave with refcnt := 1 }).record
        = some { baseSlave with refcnt := 0 } := by
  have h := slave_unref_pid_guard { baseSlave with refcnt := 1 } (by decide) (by decide)
  exact ⟨h.1, h.2.1⟩

lemma slave_activate_counters (cf : Conf) (env : Env) (s : SlaveNode) :
    (slave_activate cf env s).2.1.loaded_instance = s.loaded_instance
    ∧ (slave_activate cf env s).2.1.loaded_package = s.loaded_package := by
  unfold slave_activate slave_ref
  split_ifs <;> (try cases env.launch) <;> simp

lemma slave_unref_ret_counters (s : SlaveNode) :
    ∀ t, (slave_unref s).ret = some t →
      t.loaded_instance = s.loaded_instance ∧ t.loaded_package = s.loaded_package := by
  intro t h
  unfold slave_unref destroy_slave_node at h
  by_cases h0 : s.refcnt = 0
  · simp [h0] at h
  · by_cases h1 : s.refcnt - 1 = 0
    · simp [h0, h1] at h
    · simp [h0, h1] at h
      subst h
      exact ⟨rfl, rfl⟩

lemma slave_deactivated_counters (cf : Conf) (env : Env) (s : SlaveNode) :
    ∀ t, (slave_deactivated cf env s).1 = some t →
      t.loaded_instance = s.loaded_instance ∧ t.loaded_package = s.loaded_package := by
  intro t h
  unfold slave_deactivated at h
  dsimp only at h
  cases hu : (slave_unref { s with pid := -1, state := SlaveState.terminated, ttl_timer := false, activate_timer := false, relaunch_timer := false }).ret with
  | none => rw [hu] at h; simp at h
  | some s2 =>
    rw [hu] at h
    dsimp only at h
    have hs2 := slave_unref_ret_counters _ s2 hu
    simp only at hs2
    by_cases hr : (invoke_deactivate_cb env != 0 && s2.reactivate_slave) = true
    · rw [if_pos hr] at h
      simp only [Option.some.injEq] at h
      have ha := slave_activate_counters cf env s2
      rw [← h]
      exact ⟨ha.1.trans hs2.1, ha.2.trans hs2.2⟩
    · rw [if_neg hr] at h
      by_cases hl : (s2.loaded_instance == 0) = true
      · rw [if_pos hl] at h
        have := slave_unref_ret_counters s2 t h
        exact ⟨this.1.trans hs2.1, this.2.trans hs2.2⟩
      · rw [if_neg hl] at h
        simp only [Option.some.injEq] at h
        rw [← h]
        exact hs2

lemma slave_deactivate_counters (cf : Conf) (env : Env) (s : SlaveNode) :
    ∀ t, (slave_deactivate cf env s).1 = some t →
      t.loaded_instance = s.loaded_instance ∧ t.loaded_package = s.loaded_package := by
  intro t h
  unfold slave_deactivate at h
  dsimp only at h
  by_cases hact : (!slave_is_activated s) = true
  · rw [if_pos hact] at h
    by_cases hl : (s.loaded_instance == 0) = true
    · rw [if_pos hl] at h
      exact slave_unref_ret_counters s t h
    · rw [if_neg hl] at h
      simp only [Option.some.injEq] at h
      rw [← h]
      exact ⟨rfl, rfl⟩
  · rw [if_neg hact] at h
    by_cases hp : ({ s with state := SlaveState.requestToTerminate } : SlaveNode).pid > 0
    · rw [if_pos hp] at h
      by_cases ht : env.terminateRet < 0
      · rw [if_pos ht] at h
        exact slave_deactivated_counters cf env _ t h
      · rw [if_neg ht] at h
        simp only [Option.some.injEq] at h
        rw [← h]
        exact ⟨rfl, rfl⟩
    · rw [if_neg hp] at h
      simp only [Option.some.injEq] at h
      rw [← h]
      exact ⟨rfl, rfl⟩

/-- Claim C10: `loaded_package` and `loaded_instance` never become
negative through the load/unload operations: `slave_unload_package` at
zero and `slave_unload_instance` at zero are reported no-ops leaving the
record unchanged, and unloading from a nonnegative count keeps the count
nonnegative in every surviving record (including through the deactivation
cascade triggered when the instance count reaches zero). -/
theorem unload_counters_nonneg (cf : Conf) (env : Env) (s : SlaveNode) :
    (s.loaded_package = 0 → slave_unload_package s = (s, { errorReported := true }))
    ∧ (s.loaded_instance = 0 → slave_unload_instance cf env s = (some s, { errorReported := true }))
    ∧ (0 ≤ s.loaded_package → 0 ≤ (slave_unload_package s).1.loaded_package)
    ∧ (0 ≤ s.loaded_instance →
        ∀ t, (slave_unload_instance cf env s).1 = some t → 0 ≤ t.loaded_instance) := by
  refine ⟨?_, ?_, ?_, ?_⟩
  · intro h
    simp [slave_unload_package, h]
  · intro h
    simp [slave_unload_instance, h]
  · intro h
    unfold slave_unload_package
    by_cases h0 : s.loaded_package = 0
    · simp [h0]
    · simp [h0]
      omega
  · intro h t ht
    by_cases h0 : s.loaded_instance = 0
    · simp [slave_unload_instance, h0] at ht
      subst ht
      omega
    · have h1 : (1 : Int) ≤ s.loaded_instance := by omega
      unfold slave_unload_instance at ht
      rw [if_neg (by simp [h0])] at ht
      dsimp only at ht
      by_cases hc : (({ s with loaded_instance := s.loaded_instance - 1 } : SlaveNode).loaded_instance == 0
          && slave_is_activated { s with loaded_instance := s.loaded_instance - 1 }) = true
      · rw [if_pos hc] at ht
        have := slave_deactivate_counters cf env _ t ht
        simp only at this
        omega
      · rw [if_neg hc] at ht
        simp only [Option.some.injEq] at ht
        rw [← ht]
        simp
        omega

/-- Witness for `unload_counters_nonneg` at `baseSlave` (one loaded
instance, no loaded packages). -/
theorem unload_counters_nonneg_witness :
    slave_unload_package baseSlave = (baseSlave, { errorReported := true })
    ∧ (0 ≤ (slave_unload_package baseSlave).1.loaded_package) := by
  have h := unload_counters_nonneg sampleConf sampleEnv baseSlave
  exact ⟨h.1 (by decide), h.2.2.1 (by decide)⟩

lemma crash_step_below (cf : Conf) (env : Env) (s : SlaveNode) (tf : Timeval) (p : Int)
    (hg : env.gettimeofdayOk = true) (hv : env.deactVotes ≠ 0)
    (hd : env.debugMode = false) (hb : env.bundleOk = true)
    (hl : env.launch = LaunchResult.ok p)
    (hstate : s.state = SlaveState.resumed)
    (hload : s.loaded_instance ≠ 0)
    (href : 2 ≤ s.refcnt)
    (hfast : (timersub tf s.activated_at).sec < cf.minimum_reactivation_time)
    (hbelow : s.critical_fault_count + 1 < cf.slave_max_load) :
    slave_deactivated_by_fault cf env s tf
      = (some { s with fault_count := s.fault_count + 1, critical_fault_count := s.critical_fault_count + 1, reactivate_slave := true, reactivate_instances := true, pid := p, state := SlaveState.requestToLaunch, ttl_timer := false, activate_timer := env.activateTimerOk, relaunch_timer := false, relaunch_count := cf.slave_relaunch_count, refcnt := s.refcnt - 1 + 1 },
         { launched := true, deactivateCb := true }) := by
  have hnb : ¬(cf.slave_max_load ≤ s.critical_fault_count + 1) := by omega
  have h1 : ¬(s.refcnt = 0) := by omega
  have h2 : ¬(s.refcnt - 1 = 0) := by omega
  unfold slave_deactivated_by_fault fault_time_policy_timeval slave_deactivated slave_activate slave_unref destroy_slave_node invoke_deactivate_cb slave_is_activated slave_ref Effects.merge
  simp [hstate, hg, hd, hb, hl, hfast, hload, hnb, h1, h2, hv]

lemma crash_step_threshold (cf : Conf) (env : Env) (s : SlaveNode) (tf : Timeval)
    (hg : env.gettimeofdayOk = true)
    (hstate : s.state = SlaveState.resumed)
    (hload : s.loaded_instance ≠ 0)
    (href : 2 ≤ s.refcnt)
    (hfast : (timersub tf s.activated_at).sec < cf.minimum_reactivation_time)
    (hthresh : cf.slave_max_load ≤ s.critical_fault_count + 1) :
    slave_deactivated_by_fault cf env s tf
      = (some { s with fault_count := s.fault_count + 1, critical_fault_count := 0, reactivate_slave := false, reactivate_instances := false, pid := -1, state := SlaveState.terminated, ttl_timer := false, activate_timer := false, relaunch_timer := false, refcnt := s.refcnt - 1 },
         { faultCb := true, deactivateCb := true }) := by
  have h1 : ¬(s.refcnt = 0) := by omega
  have h2 : ¬(s.refcnt - 1 = 0) := by omega
  unfold slave_deactivated_by_fault fault_time_policy_timeval slave_deactivated slave_activate slave_unref destroy_slave_node invoke_deactivate_cb slave_is_activated slave_ref Effects.merge
  simp [hstate, hg, hfast, hload, hthresh, h1, h2]

lemma slave_activated_eval (env : Env) (ta : Timeval) (s : SlaveNode)
    (hx : env.xmonitorPaused = false) (hg : env.gettimeofdayOk = true) :
    (slave_activated env ta s).1
      = { s with state := SlaveState.resumed, ttl_timer := (if s.secured then env.ttlTimerOk else s.ttl_timer), reactivate_slave := false, reactivate_instances := false, activated_at := ta, activate_timer := false, relaunch_timer := false } := by
  unfold slave_activated
  by_cases hs : s.secured = true
  · simp [hx, hg, hs]
  · simp [hx, hg, hs]

/-- One full storm cycle: a fault-driven deactivation followed — only
when the supervisor auto-relaunched the slave (`launched` effect) — by
the "hello" handshake (`slave_activated`) at time `ta`.  `none` when the
record was destroyed or the supervisor did not relaunch. -/
def crashRelaunchCycle (cf : Conf) (env : Env) (tf ta : Timeval) (s : SlaveNode) : Option SlaveNode :=
  match slave_deactivated_by_fault cf env s tf with
  | (some s1, eff) => if eff.launched then some (slave_activated env ta s1).1 else none
  | (none, _) => none

/-- Iterate `crashRelaunchCycle` over a list of (fault time, reactivation
time) pairs. -/
def runCycles (cf : Conf) (env : Env) : List (Timeval × Timeval) → SlaveNode → Option SlaveNode
  | [], s => some s
  | (tf, ta) :: rest, s =>
    match crashRelaunchCycle cf env tf ta s with
    | some s1 => runCycles cf env rest s1
    | none => none

/-- Every fault of the sequence happens within
`MINIMUM_REACTIVATION_TIME` (in `timersub` seconds) of the activation
preceding it; `a0` is the activation time before the first fault. -/
def allFast (cf : Conf) : Timeval → List (Timeval × Timeval) → Bool
  | _, [] => true
  | a0, (tf, ta) :: rest =>
    decide ((timersub tf a0).sec < cf.minimum_reactivation_time) && allFast cf ta rest

/-- The activation time in force after a sequence of cycles. -/
def lastActivation (a0 : Timeval) : List (Timeval × Timeval) → Timeval
  | [] => a0
  | (_, ta) :: rest => lastActivation ta rest

lemma runCycles_fast_inv (cf : Conf) (env : Env) (p : Int)
    (hg : env.gettimeofdayOk = true) (hx : env.xmonitorPaused = false)
    (hv : env.deactVotes ≠ 0) (hd : env.debugMode = false) (hb : env.bundleOk = true)
    (hl : env.launch = LaunchResult.ok p) :
    ∀ (times : List (Timeval × Timeval)) (s : SlaveNode),
      s.state = SlaveState.resumed →
      s.loaded_instance ≠ 0 →
      2 ≤ s.refcnt →
      allFast cf s.activated_at times = true →
      s.critical_fault_count + times.length < cf.slave_max_load →
      ∃ s', runCycles cf env times s = some s'
        ∧ s'.critical_fault_count = s.critical_fault_count + times.length
        ∧ s'.state = SlaveState.resumed
        ∧ s'.loaded_instance = s.loaded_instance
        ∧ s'.refcnt = s.refcnt
        ∧ s'.activated_at = lastActivation s.activated_at times := by
  intro times
  induction times with
  | nil =>
    intro s h1 h2 h3 _ _
    exact ⟨s, rfl, by simp, h1, rfl, rfl, rfl⟩
  | cons t rest ih =>
    obtain ⟨tf, ta⟩ := t
    intro s h1 h2 h3 hfast hlt
    have hf1 : (timersub tf s.activated_at).sec < cf.minimum_reactivation_time := by
      have := hfast
      simp [allFast] at this
      exact this.1
    have hfrest : allFast cf ta rest = true := by
      have := hfast
      simp [allFast] at this
      exact this.2
    have hbelow : s.critical_fault_count + 1 < cf.slave_max_load := by
      have : (rest.length : Int) ≥ 0 := by positivity
      simp only [List.length_cons] at hlt
      push_cast at hlt
      omega
    have hstep := crash_step_below cf env s tf p hg hv hd hb hl h1 h2 h3 hf1 hbelow
    have hcyc : crashRelaunchCycle cf env tf ta s
        = some (slave_activated env ta { s with fault_count := s.fault_count + 1, critical_fault_count := s.critical_fault_count + 1, reactivate_slave := true, reactivate_instances := true, pid := p, state := SlaveState.requestToLaunch, ttl_timer := false, activate_timer := env.activateTimerOk, relaunch_timer := false, relaunch_count := cf.slave_relaunch_count, refcnt := s.refcnt - 1 + 1 }).1 := by
      unfold crashRelaunchCycle
      rw [hstep]
      rfl
    rw [slave_activated_eval env ta _ hx hg] at hcyc
    obtain ⟨s1, hcyc1, hq1, hq2, hq3, hq4, hq5⟩ :
        ∃ s1, crashRelaunchCycle cf env tf ta s = some s1
          ∧ s1.state = SlaveState.resumed
          ∧ s1.critical_fault_count = s.critical_fault_count + 1
          ∧ s1.loaded_instance = s.loaded_instance
          ∧ s1.refcnt = s.refcnt
          ∧ s1.activated_at = ta := by
      refine ⟨_, hcyc, rfl, rfl, rfl, ?_, rfl⟩
      exact (by omega : s.refcnt - 1 + 1 = s.refcnt)
    have hrun' : runCycles cf env ((tf, ta) :: rest) s = runCycles cf env rest s1 := by
      simp only [runCycles]
      rw [hcyc1]
    obtain ⟨s', hr1, hr2, hr3, hr4, hr5, hr6⟩ :=
      ih s1 hq1 (by rw [hq3]; exact h2) (by rw [hq4]; exact h3)
        (by rw [hq5]; exact hfrest)
        (by rw [hq2]; simp only [List.length_cons] at hlt; push_cast at hlt ⊢; omega)
    refine ⟨s', by rw [hrun']; exact hr1, ?_, hr3, ?_, ?_, ?_⟩
    · rw [hr2, hq2]
      simp only [List.length_cons]
      push_cast
      omega
    · rw [hr4, hq3]
    · rw [hr5, hq4]
    · rw [hr6, hq5]
      rfl

/-- Claim C2: for an activated slave with loaded instances, every
fault-driven deactivation within MINIMUM_REACTIVATION_TIME of the last
activation increments `critical_fault_count` (and the slave is
auto-relaunched), so a sequence of SLAVE_MAX_LOAD consecutive such fast
crashes reaches the threshold on the SLAVE_MAX_LOAD-th crash: that crash
clears both reactivation flags, fires the fault callbacks, and does not
relaunch the slave.  The first SLAVE_MAX_LOAD - 1 crash/relaunch cycles
are `runCycles` (each one only proceeds when the supervisor relaunched);
the final crash is examined directly. -/
theorem fast_crash_storm (cf : Conf) (env : Env) (s : SlaveNode)
    (times : List (Timeval × Timeval)) (tf : Timeval) (p : Int)
    (hg : env.gettimeofdayOk = true) (hx : env.xmonitorPaused = false)
    (hv : env.deactVotes ≠ 0) (hd : env.debugMode = false) (hb : env.bundleOk = true)
    (hl : env.launch = LaunchResult.ok p)
    (hstate : s.state = SlaveState.resumed) (hcnt : s.critical_fault_count = 0)
    (hload : s.loaded_instance ≠ 0) (href : 2 ≤ s.refcnt)
    (hlen : (times.length : Int) + 1 = cf.slave_max_load)
    (hfast : allFast cf s.activated_at times = true)
    (hlast : (timersub tf (lastActivation s.activated_at times)).sec < cf.minimum_reactivation_time) :
    ∃ s', runCycles cf env times s = some s'
      ∧ s'.critical_fault_count = (times.length : Int)
      ∧ (slave_deactivated_by_fault cf env s' tf).2.faultCb = true
      ∧ (slave_deactivated_by_fault cf env s' tf).2.launched = false
      ∧ ∃ s'', (slave_deactivated_by_fault cf env s' tf).1 = some s''
          ∧ s''.reactivate_slave = false
          ∧ s''.reactivate_instances = false
          ∧ s''.critical_fault_count = 0
          ∧ s''.state = SlaveState.terminated := by
  have hlt : s.critical_fault_count + (times.length : Int) < cf.slave_max_load := by
    rw [hcnt]
    omega
  obtain ⟨s', hrun, hc, hst, hld, hrc, hat⟩ :=
    runCycles_fast_inv cf env p hg hx hv hd hb hl times s hstate hload href hfast hlt
  have hthresh : cf.slave_max_load ≤ s'.critical_fault_count + 1 := by
    rw [hc, hcnt]
    omega
  have hstep := crash_step_threshold cf env s' tf hg hst
    (by rw [hld]; exact hload) (by rw [hrc]; exact href) (by rw [hat]; exact hlast) hthresh
  refine ⟨s', hrun, by rw [hc, hcnt]; omega, by rw [hstep], by rw [hstep], ?_⟩
  exact ⟨_, by rw [hstep], rfl, rfl, rfl, rfl⟩

/-- Witness for `fast_crash_storm` with SLAVE_MAX_LOAD = 2: one fast
crash/relaunch cycle and a second fast crash. -/
theorem fast_crash_storm_witness :
    ∃ s', runCycles sampleConf sampleEnv [(⟨1, 0⟩, ⟨2, 0⟩)] baseSlave = some s'
      ∧ s'.critical_fault_count = 1
      ∧ (slave_deactivated_by_fault sampleConf sampleEnv s' ⟨3, 0⟩).2.faultCb = true
      ∧ (slave_deactivated_by_fault sampleConf sampleEnv s' ⟨3, 0⟩).2.launched = false
      ∧ ∃ s'', (slave_deactivated_by_fault sampleConf sampleEnv s' ⟨3, 0⟩).1 = some s''
          ∧ s''.reactivate_slave = false
          ∧ s''.reactivate_instances = false
          ∧ s''.critical_fault_count = 0
          ∧ s''.state = SlaveState.terminated := by
  have h := fast_crash_storm sampleConf sampleEnv baseSlave [(⟨1, 0⟩, ⟨2, 0⟩)] ⟨3, 0⟩ 5
    rfl rfl (by decide) rfl rfl rfl rfl rfl (by decide) (by decide) (by decide) (by decide)
    (by decide)
  simpa using h
